import Mathlib

/-!
Shallow embedding of the server response sequencer in
`src/server/response.rs`: a typestate HTTP response writer with a `Fresh`
(preparing) phase and a `Streaming` phase.  External collaborators that
are declared outside this file (the network stream, the buffered writer,
the header collection, the status / version / date renderings and the
line-ending constants) are modelled from the specification where noted.
-/

namespace ServerResponse

/-- An I/O failure reported by the underlying sink (Rust `IoError`); only
its identity matters to the sequencer. -/
structure IoError where
  code : Nat
deriving DecidableEq, Repr

/-- Modelled from the spec: `rfc7230::CR`, the carriage-return byte of the
fixed line terminator (§6 line-ending constant). -/
def CR : Char := '\r'

/-- Modelled from the spec: `rfc7230::LF`, the line-feed byte of the fixed
line terminator. -/
def LF : Char := '\n'

/-- Modelled from the spec: `rfc7230::LINE_ENDING`, the fixed two-byte
CRLF sequence used as every preamble line terminator. -/
def LINE_ENDING : String := "\r\n"

/-- Modelled from the spec: `version::HttpVersion`, the protocol version
value, rendering as the protocol's textual identifier (§6). -/
inductive HttpVersion where
  | Http09
  | Http10
  | Http11
  | Http20
deriving DecidableEq, Repr

/-- Textual identifier of a protocol version. -/
def HttpVersion.render : HttpVersion → String
  | .Http09 => "HTTP/0.9"
  | .Http10 => "HTTP/1.0"
  | .Http11 => "HTTP/1.1"
  | .Http20 => "HTTP/2.0"

/-- Modelled from the spec: `status::StatusCode`, rendering as
numeric code followed by reason phrase (§6). -/
structure StatusCode where
  code : Nat
  reason : String
deriving DecidableEq, Repr

/-- The default success status `status::Ok`: 200 OK. -/
def statusOk : StatusCode := ⟨200, "OK"⟩

/-- Textual rendering of a status: numeric code, space, reason phrase. -/
def StatusCode.render (s : StatusCode) : String :=
  toString s.code ++ " " ++ s.reason

/-- Modelled from the spec: `header::Headers`, an ordered mapping from
header name to rendered value with deterministic insertion-order
iteration (§6). -/
structure Headers where
  items : List (String × String)
deriving DecidableEq, Repr

/-- `Headers::new`: the empty collection. -/
def Headers.new : Headers := ⟨[]⟩

/-- `Headers::has`: whether a header with the given name is present. -/
def Headers.has (h : Headers) (name : String) : Bool :=
  h.items.any (fun p => p.1 == name)

/-- Replace the value of an existing entry in place, or append a new
entry at the end. -/
def setItems : List (String × String) → String → String → List (String × String)
  | [], name, value => [(name, value)]
  | p :: rest, name, value =>
    if p.1 == name then (name, value) :: rest
    else p :: setItems rest name value

/-- `Headers::set`: store a header, keeping the position of an existing
entry of the same name. -/
def Headers.set (h : Headers) (name value : String) : Headers :=
  ⟨setItems h.items name value⟩

/-- Number of entries with the given name. -/
def Headers.count (h : Headers) (name : String) : Nat :=
  (h.items.filter (fun p => p.1 == name)).length

/-- Modelled from the spec: the clock value returned by `time::now_utc`
(§6); only its identity matters to the sequencer. -/
structure UtcTime where
  ticks : Nat
deriving DecidableEq, Repr

/-- Modelled from the spec: the canonical textual rendering of a `Date`
header value; date formatting is an out-of-scope collaborator (§1), so it
is modelled as an abstract rendering of the clock value. -/
def UtcTime.render (t : UtcTime) : String := toString t.ticks

/-- The name of the `common::Date` header. -/
def dateName : String := "Date"

/-- Modelled from the spec: the buffered byte sink
(`BufferedWriter<S: NetworkStream>`, §6).  `written` records the bytes
handed to the buffered channel in order; `results` prescribes the outcome
of each successive write attempt (`none` is success; attempts past the
end of the list succeed), `flushResults` likewise for flushes;
`attempts` and `flushAttempts` count the calls made so far. -/
structure BufWriter where
  results : List (Option IoError)
  flushResults : List (Option IoError)
  attempts : Nat
  flushAttempts : Nat
  written : String
deriving DecidableEq, Repr

/-- One buffered `write` call: the prescribed behaviour decides success;
on success the bytes are appended to the trace unmodified. -/
def BufWriter.write (b : BufWriter) (s : String) : BufWriter × Option IoError :=
  match b.results.getD b.attempts none with
  | none =>
    (⟨b.results, b.flushResults, b.attempts + 1, b.flushAttempts, b.written ++ s⟩,
      none)
  | some e =>
    (⟨b.results, b.flushResults, b.attempts + 1, b.flushAttempts, b.written⟩,
      some e)

/-- One buffered `flush` call. -/
def BufWriter.flush (b : BufWriter) : BufWriter × Option IoError :=
  (⟨b.results, b.flushResults, b.attempts, b.flushAttempts + 1, b.written⟩,
    b.flushResults.getD b.flushAttempts none)

/-- A sequence of write calls, aborting at the first failure
(Rust `try!`). -/
def writeSeq : BufWriter → List String → BufWriter × Option IoError
  | b, [] => (b, none)
  | b, s :: rest =>
    match b.write s with
    | (b2, none) => writeSeq b2 rest
    | (b2, some e) => (b2, some e)

/-- Modelled from the spec: the `NetworkStream` handed to `new` — the
accepted connection's output side, carrying the connection's negotiated
protocol version (§4.1) and the sink's prescribed write and flush
outcomes. -/
structure NetworkConn where
  negotiated : HttpVersion
  results : List (Option IoError)
  flushResults : List (Option IoError)
deriving DecidableEq, Repr

/-- `BufferedWriter::new(stream)`: wrap the sink; nothing written yet. -/
def BufWriter.new (c : NetworkConn) : BufWriter :=
  ⟨c.results, c.flushResults, 0, 0, ""⟩

/-- Phantom type: headers and status have not been written. -/
inductive Fresh where
  | mk
deriving DecidableEq, Repr

/-- Phantom type: headers and status have been written. -/
inductive Streaming where
  | mk
deriving DecidableEq, Repr

/-- `Response<W, S>`: the outgoing half of the connection, parameterized
by the phantom write-status type.  The `version` field is `pub` in the
source (any holder may assign it); `body`, `status` and `headers` are
private. -/
structure Response (W : Type) where
  version : HttpVersion
  body : BufWriter
  status : StatusCode
  headers : Headers
deriving DecidableEq, Repr

/-- `Response::construct`: build a `Fresh` response from its parts. -/
def Response.construct (version : HttpVersion) (body : BufWriter)
    (status : StatusCode) (headers : Headers) : Response Fresh :=
  { status := status, version := version, body := body, headers := headers }

/-- `Response::<Fresh, S>::new`: wrap a freshly accepted connection. -/
def Response.new (stream : NetworkConn) : Response Fresh :=
  { status := statusOk
    version := HttpVersion.Http11
    headers := Headers.new
    body := BufWriter.new stream }

/-- `status_mut`: mutate the status; expressible only in `Fresh` phase. -/
def Response.setStatus (r : Response Fresh) (s : StatusCode) : Response Fresh :=
  { r with status := s }

/-- `headers_mut`: mutate the headers; expressible only in `Fresh`
phase. -/
def Response.setHeaders (r : Response Fresh) (h : Headers) : Response Fresh :=
  { r with headers := h }

/-- `Response::<Fresh, S>::deconstruct`: the constituent parts. -/
def Response.deconstruct (r : Response Fresh) :
    HttpVersion × BufWriter × StatusCode × Headers :=
  (r.version, r.body, r.status, r.headers)

/-- The formatted status line written by the first `write!` of `start`:
version, space, status, CR, LF. -/
def statusLine (v : HttpVersion) (s : StatusCode) : String :=
  v.render ++ " " ++ s.render ++ CR.toString ++ LF.toString

/-- The formatted header line written per header: `name: value` (its
terminator is written by a separate call). -/
def headerLine (p : String × String) : String :=
  p.1 ++ ": " ++ p.2

/-- The `Date` guard of `start` (lines 78–80): if no `Date` header is
present, insert one rendered from the current UTC time. -/
def ensureDate (h : Headers) (now : UtcTime) : Headers :=
  if h.has dateName then h else h.set dateName now.render

/-- The write calls issued by the header loop of `start`: for each header
its line and a CRLF terminator, as two separate calls. -/
def headerWrites : List (String × String) → List String
  | [] => []
  | p :: rest => headerLine p :: LINE_ENDING :: headerWrites rest

/-- The sequence of buffered write calls issued by `start`, in order:
status line, header writes, then one final CRLF call for the blank
line. -/
def startWriteCalls (v : HttpVersion) (s : StatusCode) (h : Headers)
    (now : UtcTime) : List String :=
  statusLine v s :: (headerWrites (ensureDate h now).items ++ [LINE_ENDING])

/-- The write phase of `start`: run all preamble write calls against the
body writer, aborting at the first failure. -/
def Response.startAux (r : Response Fresh) (now : UtcTime) :
    BufWriter × Option IoError :=
  writeSeq r.body (startWriteCalls r.version r.status r.headers now)

/-- `Response::<Fresh, S>::start` (lines 74–97): write the status line,
ensure a `Date` header, write each header line and terminator, write the
blank line; on any failure return the error; on success return the
`Streaming` response carrying the same sink, version, status and the
(possibly extended) headers. -/
def Response.start (r : Response Fresh) (now : UtcTime) :
    Except IoError (Response Streaming) :=
  match r.startAux now with
  | (b, none) =>
    Except.ok { version := r.version, body := b, status := r.status,
                headers := ensureDate r.headers now }
  | (_, some e) => Except.error e

/-- `Writer::write` for `Response<Streaming, S>` (lines 121–124): forward
the bytes to the buffered sink, mirroring its result. -/
def Response.write (r : Response Streaming) (msg : String) :
    Response Streaming × Option IoError :=
  ({ r with body := (r.body.write msg).1 }, (r.body.write msg).2)

/-- `Writer::flush` for `Response<Streaming, S>` (lines 126–128). -/
def Response.flush (r : Response Streaming) : Response Streaming × Option IoError :=
  ({ r with body := r.body.flush.1 }, r.body.flush.2)

/-- `Response::<Streaming, S>::end` (lines 114–117); `end` is a Lean
keyword, hence the name: a final flush, consuming the response. -/
def Response.finish (r : Response Streaming) : Response Streaming × Option IoError :=
  r.flush

/-- Any number of body `write` calls in sequence. -/
def Response.writeAll : Response Streaming → List String → Response Streaming
  | r, [] => r
  | r, c :: cs => Response.writeAll (r.write c).1 cs

/-- The rendered header block: each header line, CRLF-terminated. -/
def headerBlock : List (String × String) → String
  | [] => ""
  | p :: rest => headerLine p ++ LINE_ENDING ++ headerBlock rest

/-- Concatenation of a trace of write calls. -/
def sjoin : List String → String
  | [] => ""
  | s :: rest => s ++ sjoin rest

/-- A sink on which every write and flush succeeds, starting empty. -/
def okWriter : BufWriter := ⟨[], [], 0, 0, ""⟩

/-- A fresh response over the all-success sink with no headers. -/
def rEmpty : Response Fresh :=
  Response.construct HttpVersion.Http11 okWriter statusOk Headers.new

/-- The streaming response produced by `rEmpty.start` at clock 0. -/
def tEmpty : Response Streaming :=
  ⟨HttpVersion.Http11, ⟨[], [], 4, 0, "HTTP/1.1 200 OK\r\nDate: 0\r\n\r\n"⟩,
    statusOk, ⟨[(dateName, "0")]⟩⟩

/-- A fresh response whose caller already supplied a `Date` header. -/
def rDated : Response Fresh :=
  Response.construct HttpVersion.Http11 okWriter statusOk ⟨[(dateName, "d0")]⟩

/-- The streaming response produced by `rDated.start` at clock 5. -/
def tDated : Response Streaming :=
  ⟨HttpVersion.Http11, ⟨[], [], 4, 0, "HTTP/1.1 200 OK\r\nDate: d0\r\n\r\n"⟩,
    statusOk, ⟨[(dateName, "d0")]⟩⟩

/-- Success of every write in a trace extends the sink contents by their
concatenation, advances the attempt counter by their number, and touches
nothing else. -/
theorem writeSeq_ok (L : List String) (b b2 : BufWriter)
    (h : writeSeq b L = (b2, none)) :
    b2.results = b.results ∧ b2.flushResults = b.flushResults ∧
    b2.flushAttempts = b.flushAttempts ∧
    b2.attempts = b.attempts + L.length ∧
    b2.written = b.written ++ sjoin L := by
  induction L generalizing b with
  | nil =>
    simp only [writeSeq, Prod.mk.injEq] at h
    obtain ⟨rfl, -⟩ := h
    simp [sjoin, String.append_empty]
  | cons s rest ih =>
    rw [writeSeq, BufWriter.write] at h
    cases hr : b.results.getD b.attempts none with
    | none =>
      rw [hr] at h
      simp only at h
      obtain ⟨h1, h2, h3, h4, h5⟩ := ih _ h
      refine ⟨h1, h2, h3, ?_, ?_⟩
      · simp only [h4, List.length_cons]; omega
      · simp only [h5, sjoin, String.append_assoc]
    | some e =>
      rw [hr] at h
      simp at h

/-- If the writes before the Nth succeed and the Nth fails, the run
aborts there: exactly N+1 attempts are made and only the first N calls
reach the sink. -/
theorem writeSeq_err (L : List String) (b : BufWriter) (N : Nat) (e : IoError)
    (hN : N < L.length)
    (hok : ∀ k, k < N → b.results.getD (b.attempts + k) none = none)
    (he : b.results.getD (b.attempts + N) none = some e) :
    writeSeq b L =
      (⟨b.results, b.flushResults, b.attempts + (N + 1), b.flushAttempts,
        b.written ++ sjoin (L.take N)⟩, some e) := by
  induction L generalizing b N with
  | nil => simp at hN
  | cons s rest ih =>
    cases N with
    | zero =>
      rw [writeSeq, BufWriter.write]
      simp only [Nat.add_zero] at he
      rw [he]
      simp [sjoin, String.append_empty]
    | succ M =>
      rw [writeSeq, BufWriter.write]
      have h0 : b.results.getD b.attempts none = none := by
        have := hok 0 (Nat.succ_pos M)
        simpa using this
      rw [h0]
      simp only
      have hok2 : ∀ k, k < M →
          (⟨b.results, b.flushResults, b.attempts + 1, b.flushAttempts,
            b.written ++ s⟩ : BufWriter).results.getD
            (b.attempts + 1 + k) none = none := by
        intro k hk
        have := hok (k + 1) (by omega)
        simpa [Nat.add_assoc, Nat.add_comm 1 k] using this
      have he2 : (⟨b.results, b.flushResults, b.attempts + 1, b.flushAttempts,
          b.written ++ s⟩ : BufWriter).results.getD
          (b.attempts + 1 + M) none = some e := by
        have := he
        simpa [Nat.add_assoc, Nat.add_comm 1 M] using this
      have key := ih (⟨b.results, b.flushResults, b.attempts + 1, b.flushAttempts,
        b.written ++ s⟩ : BufWriter) M (by simpa using Nat.lt_of_succ_lt_succ hN)
        hok2 he2
      rw [key]
      simp only [Prod.mk.injEq, BufWriter.mk.injEq, List.take_succ_cons, sjoin,
        String.append_assoc, true_and, and_true]
      omega

/-- The header-loop writes followed by the blank line concatenate to the
rendered header block followed by the blank line. -/
theorem sjoin_headerWrites (l : List (String × String)) :
    sjoin (headerWrites l ++ [LINE_ENDING]) = headerBlock l ++ LINE_ENDING := by
  induction l with
  | nil => simp [headerWrites, headerBlock, sjoin, String.empty_append, String.append_empty]
  | cons p rest ih =>
    simp [headerWrites, headerBlock, sjoin, ih, List.append_eq,
      String.append_assoc]

/-- A successful `start` characterized: the streaming response keeps the
version and status, carries the Date-ensured headers, and its sink holds
the prior contents followed by the full preamble; the sink behaviour and
flush state are untouched. -/
theorem start_ok_spec (r : Response Fresh) (now : UtcTime) (t : Response Streaming)
    (h : r.start now = Except.ok t) :
    t.version = r.version ∧ t.status = r.status ∧
    t.headers = ensureDate r.headers now ∧
    t.body = (r.startAux now).1 ∧
    t.body.written = r.body.written ++
      (statusLine r.version r.status ++
        (headerBlock (ensureDate r.headers now).items ++ LINE_ENDING)) ∧
    t.body.results = r.body.results ∧
    t.body.flushResults = r.body.flushResults ∧
    t.body.flushAttempts = r.body.flushAttempts := by
  unfold Response.start at h
  cases hA : r.startAux now with
  | mk b res =>
    rw [hA] at h
    cases res with
    | some e => simp at h
    | none =>
      simp only at h
      injection h with h
      subst h
      have hws : writeSeq r.body (startWriteCalls r.version r.status r.headers now)
          = (b, none) := by
        have := hA
        rw [Response.startAux] at this
        exact this
      obtain ⟨h1, h2, h3, h4, h5⟩ := writeSeq_ok _ _ _ hws
      refine ⟨rfl, rfl, rfl, rfl, ?_, h1, h2, h3⟩
      show b.written = _
      rw [h5, startWriteCalls]
      simp [sjoin, sjoin_headerWrites]

/-- Body writes only ever extend the sink contents. -/
theorem writeAll_extends (chunks : List String) (t : Response Streaming) :
    ∃ s, (t.writeAll chunks).body.written = t.body.written ++ s := by
  induction chunks generalizing t with
  | nil => exact ⟨"", by simp [Response.writeAll, String.append_empty]⟩
  | cons c cs ih =>
    rw [Response.writeAll]
    obtain ⟨s, hs⟩ := ih (t.write c).1
    cases hr : t.body.results.getD t.body.attempts none with
    | none =>
      refine ⟨c ++ s, ?_⟩
      rw [hs]
      simp only [Response.write, BufWriter.write, hr]
      simp [String.append_assoc]
    | some e =>
      refine ⟨s, ?_⟩
      rw [hs]
      simp only [Response.write, BufWriter.write, hr]

/-- When the name is absent, `set` appends a new entry at the end. -/
theorem setItems_not_mem (l : List (String × String)) (n v : String)
    (h : l.any (fun p => p.1 == n) = false) :
    setItems l n v = l ++ [(n, v)] := by
  induction l with
  | nil => rfl
  | cons p rest ih =>
    simp only [List.any_cons, Bool.or_eq_false_iff] at h
    rw [setItems, h.1]
    simp [ih h.2]

/-- An absent name occurs zero times. -/
theorem count_not_has (hd : Headers) (n : String) (h : hd.has n = false) :
    hd.count n = 0 := by
  rw [Headers.has, List.any_eq_false] at h
  rw [Headers.count, List.length_eq_zero, List.filter_eq_nil_iff]
  exact h

/-- Setting an absent name yields exactly one occurrence. -/
theorem count_set_absent (hd : Headers) (n v : String) (h : hd.has n = false) :
    (hd.set n v).count n = 1 := by
  have h0 : hd.count n = 0 := count_not_has hd n h
  rw [Headers.count, List.length_eq_zero, List.filter_eq_nil_iff] at h0
  rw [Headers.set, Headers.count]
  rw [setItems_not_mem hd.items n v (by rw [Headers.has] at h; exact h)]
  rw [List.filter_append]
  rw [List.filter_eq_nil_iff.mpr h0]
  simp

/-- The blank line is issued as the final, separate write call. -/
theorem startWriteCalls_getLast (v : HttpVersion) (s : StatusCode) (h : Headers)
    (now : UtcTime) :
    (startWriteCalls v s h now).getLast? = some LINE_ENDING := by
  rw [startWriteCalls, ← List.cons_append]
  exact List.getLast?_concat _

/-- Body writes never change the stored version. -/
theorem writeAll_version (chunks : List String) (t : Response Streaming) :
    (t.writeAll chunks).version = t.version := by
  induction chunks generalizing t with
  | nil => rfl
  | cons c cs ih =>
    rw [Response.writeAll, ih]
    rfl

/-- Claim C1, counterexample: for the empty header collection a
successful `start` does not write exactly the status line, the header
lines of the collection and the blank line — a synthesized `Date` line
intervenes. -/
theorem c1_counterexample :
    rEmpty.start ⟨0⟩ = Except.ok tEmpty ∧
    tEmpty.body.written ≠
      rEmpty.body.written ++
        (statusLine rEmpty.version rEmpty.status ++
          (headerBlock rEmpty.headers.items ++ LINE_ENDING)) :=
  ⟨by rfl, by decide⟩

/-- Claim C1 (amended): a successful `start` writes to the sink exactly
the status line, one CRLF-terminated `name: value` line for each header
of the collection after the Date-synthesis step (the collection itself
when it already holds a `Date` entry), in iteration order, and one final
CRLF blank line, byte for byte; the blank line is issued as its own,
final write call, distinct from the last header line. -/
theorem c1_start_output (r : Response Fresh) (now : UtcTime)
    (t : Response Streaming) (h : r.start now = Except.ok t) :
    t.body.written = r.body.written ++
      (statusLine r.version r.status ++
        (headerBlock (ensureDate r.headers now).items ++ LINE_ENDING)) ∧
    (startWriteCalls r.version r.status r.headers now).getLast? =
      some LINE_ENDING :=
  ⟨(start_ok_spec r now t h).2.2.2.2.1, startWriteCalls_getLast _ _ _ _⟩

/-- Claim C1, witness at a caller-supplied `Date` header. -/
theorem c1_start_output_witness :
    tDated.body.written = rDated.body.written ++
      (statusLine rDated.version rDated.status ++
        (headerBlock (ensureDate rDated.headers ⟨5⟩).items ++ LINE_ENDING)) ∧
    (startWriteCalls rDated.version rDated.status rDated.headers ⟨5⟩).getLast? =
      some LINE_ENDING :=
  c1_start_output rDated ⟨5⟩ tDated (by rfl)

/-- Claim C2: no byte passed to `write` reaches the sink before the full
preamble; after a successful `start` followed by any sequence of body
writes, the sink holds the prior contents, then the complete preamble,
then the body bytes. -/
theorem c2_body_after_preamble (r : Response Fresh) (now : UtcTime)
    (t : Response Streaming) (chunks : List String)
    (h : r.start now = Except.ok t) :
    ∃ bodyBytes,
      (t.writeAll chunks).body.written =
        r.body.written ++
          (statusLine r.version r.status ++
            (headerBlock (ensureDate r.headers now).items ++ LINE_ENDING)) ++
          bodyBytes := by
  obtain ⟨s, hs⟩ := writeAll_extends chunks t
  refine ⟨s, ?_⟩
  rw [hs, (start_ok_spec r now t h).2.2.2.2.1]

/-- Claim C2, witness: a body write after starting over the empty header
collection. -/
theorem c2_body_after_preamble_witness :
    ∃ bodyBytes,
      (tEmpty.writeAll ["hi"]).body.written =
        rEmpty.body.written ++
          (statusLine rEmpty.version rEmpty.status ++
            (headerBlock (ensureDate rEmpty.headers ⟨0⟩).items ++ LINE_ENDING)) ++
          bodyBytes :=
  c2_body_after_preamble rEmpty ⟨0⟩ tEmpty ["hi"] (by rfl)

/-- Claim C3: every operation exposed on the `Streaming` phase — `write`,
`flush`, `end` (the accessors are the field reads themselves) — leaves
the stored status and header collection unchanged; the embedding defines
the mutating accessors only at the `Fresh` type. -/
theorem c3_streaming_immutable (t : Response Streaming) (msg : String) :
    (t.write msg).1.status = t.status ∧ (t.write msg).1.headers = t.headers ∧
    t.flush.1.status = t.status ∧ t.flush.1.headers = t.headers ∧
    t.finish.1.status = t.status ∧ t.finish.1.headers = t.headers :=
  ⟨rfl, rfl, rfl, rfl, rfl, rfl⟩

/-- Claim C4: if the sink fails on the Nth preamble line write, `start`
returns that error, makes exactly N+1 write attempts (so no subsequent
preamble line is attempted), and only the first N lines reached the
sink. -/
theorem c4_start_error_aborts (v : HttpVersion) (s : StatusCode) (hd : Headers)
    (now : UtcTime) (res fres : List (Option IoError)) (w0 : String)
    (N : Nat) (e : IoError)
    (hN : N < (startWriteCalls v s hd now).length)
    (hok : ∀ k, k < N → res.getD k none = none)
    (he : res.getD N none = some e) :
    (Response.construct v ⟨res, fres, 0, 0, w0⟩ s hd).start now =
      Except.error e ∧
    ((Response.construct v ⟨res, fres, 0, 0, w0⟩ s hd).startAux now).1.attempts =
      N + 1 ∧
    ((Response.construct v ⟨res, fres, 0, 0, w0⟩ s hd).startAux now).1.written =
      w0 ++ sjoin ((startWriteCalls v s hd now).take N) := by
  have hws := writeSeq_err (startWriteCalls v s hd now)
    (⟨res, fres, 0, 0, w0⟩ : BufWriter) N e hN
    (by intro k hk; simpa using hok k hk) (by simpa using he)
  have hA : (Response.construct v ⟨res, fres, 0, 0, w0⟩ s hd).startAux now =
      (⟨res, fres, 0 + (N + 1), 0, w0 ++ sjoin ((startWriteCalls v s hd now).take N)⟩,
        some e) := by
    rw [Response.startAux]
    exact hws
  refine ⟨?_, ?_, ?_⟩
  · rw [Response.start, hA]
  · rw [hA]
    simp
  · rw [hA]

/-- Claim C4, witness: the sink succeeds on the status line and fails on
the first header line. -/
theorem c4_start_error_aborts_witness :
    (Response.construct HttpVersion.Http11 ⟨[none, some ⟨7⟩], [], 0, 0, ""⟩
        statusOk ⟨[("X", "y")]⟩).start ⟨0⟩ = Except.error ⟨7⟩ ∧
    ((Response.construct HttpVersion.Http11 ⟨[none, some ⟨7⟩], [], 0, 0, ""⟩
        statusOk ⟨[("X", "y")]⟩).startAux ⟨0⟩).1.attempts = 1 + 1 ∧
    ((Response.construct HttpVersion.Http11 ⟨[none, some ⟨7⟩], [], 0, 0, ""⟩
        statusOk ⟨[("X", "y")]⟩).startAux ⟨0⟩).1.written =
      "" ++ sjoin ((startWriteCalls HttpVersion.Http11 statusOk ⟨[("X", "y")]⟩
        ⟨0⟩).take 1) :=
  c4_start_error_aborts HttpVersion.Http11 statusOk ⟨[("X", "y")]⟩ ⟨0⟩
    [none, some ⟨7⟩] [] "" 1 ⟨7⟩ (by decide)
    (fun k hk => by interval_cases k; rfl) (by rfl)

/-- Claim C5: at commit time a `Date` header is inserted exactly when the
collection lacks one — rendered from the current UTC time and appearing
exactly once — while a caller-supplied `Date` leaves the collection
untouched; the serialized header block is that of the resulting
collection. -/
theorem c5_date_synthesis (r : Response Fresh) (now : UtcTime)
    (t : Response Streaming) (h : r.start now = Except.ok t) :
    (r.headers.has dateName = false →
      t.headers = r.headers.set dateName now.render ∧
      t.headers.count dateName = 1) ∧
    (r.headers.has dateName = true → t.headers = r.headers) ∧
    t.body.written = r.body.written ++
      (statusLine r.version r.status ++
        (headerBlock t.headers.items ++ LINE_ENDING)) := by
  have hh := (start_ok_spec r now t h).2.2.1
  refine ⟨?_, ?_, ?_⟩
  · intro hno
    have hd2 : ensureDate r.headers now = r.headers.set dateName now.render := by
      rw [ensureDate, hno]
      simp
    rw [hh, hd2]
    exact ⟨rfl, count_set_absent _ _ _ hno⟩
  · intro hyes
    have hd3 : ensureDate r.headers now = r.headers := by
      rw [ensureDate, hyes]
      simp
    rw [hh, hd3]
  · rw [hh]
    exact (start_ok_spec r now t h).2.2.2.2.1

/-- Claim C5, witness: starting with no `Date` header synthesizes one. -/
theorem c5_date_synthesis_witness :
    (rEmpty.headers.has dateName = false →
      tEmpty.headers = rEmpty.headers.set dateName (UtcTime.render ⟨0⟩) ∧
      tEmpty.headers.count dateName = 1) ∧
    (rEmpty.headers.has dateName = true → tEmpty.headers = rEmpty.headers) ∧
    tEmpty.body.written = rEmpty.body.written ++
      (statusLine rEmpty.version rEmpty.status ++
        (headerBlock tEmpty.headers.items ++ LINE_ENDING)) :=
  c5_date_synthesis rEmpty ⟨0⟩ tEmpty (by rfl)

/-- Claim C6, counterexample: `version` is a public field of `Response`
(line 31 of the source), so the holder may assign it directly after
construction — embedded as a record update on a `Streaming` response —
contradicting that the API exposes no way to modify it. -/
theorem c6_counterexample :
    ({ tEmpty with version := HttpVersion.Http10 } : Response Streaming).version ≠
      tEmpty.version := by decide

/-- Claim C6 (amended): no operation provided by the component changes
the version: it survives the `Fresh`-phase mutators, the transition, and
every `Streaming`-phase operation; the field itself, however, is public,
so direct assignment by the holder is not prevented. -/
theorem c6_version_immutable (r : Response Fresh) (now : UtcTime)
    (t : Response Streaming) (st : StatusCode) (hd : Headers) (msg : String)
    (chunks : List String) (h : r.start now = Except.ok t) :
    t.version = r.version ∧
    (r.setStatus st).version = r.version ∧
    (r.setHeaders hd).version = r.version ∧
    (t.write msg).1.version = t.version ∧
    t.flush.1.version = t.version ∧
    t.finish.1.version = t.version ∧
    (t.writeAll chunks).version = t.version :=
  ⟨(start_ok_spec r now t h).1, rfl, rfl, rfl, rfl, rfl,
    writeAll_version chunks t⟩

/-- Claim C6, witness. -/
theorem c6_version_immutable_witness :
    tDated.version = rDated.version ∧
    (rDated.setStatus ⟨404, "Not Found"⟩).version = rDated.version ∧
    (rDated.setHeaders Headers.new).version = rDated.version ∧
    (tDated.write "x").1.version = tDated.version ∧
    tDated.flush.1.version = tDated.version ∧
    tDated.finish.1.version = tDated.version ∧
    (tDated.writeAll ["a", "b"]).version = tDated.version :=
  c6_version_immutable rDated ⟨5⟩ tDated ⟨404, "Not Found"⟩ Headers.new "x"
    ["a", "b"] (by rfl)

/-- Claim C7, counterexample: `new` hardcodes HTTP/1.1 (line 68 of the
source) and ignores the connection's negotiated version: constructed over
a connection negotiated at HTTP/1.0, the response does not carry the
negotiated version. -/
theorem c7_counterexample :
    (Response.new ⟨HttpVersion.Http10, [], []⟩).version ≠
      (⟨HttpVersion.Http10, [], []⟩ : NetworkConn).negotiated := by decide

/-- Claim C7 (amended): `new(stream)` takes ownership of the sink and
returns a `Fresh` writer with status 200 OK, the fixed version HTTP/1.1
regardless of the connection, and empty headers; it performs no I/O and
always succeeds. -/
theorem c7_new_defaults (c : NetworkConn) :
    (Response.new c).status = statusOk ∧
    (Response.new c).version = HttpVersion.Http11 ∧
    (Response.new c).headers = Headers.new ∧
    (Response.new c).body = BufWriter.new c ∧
    (Response.new c).body.written = "" ∧
    (Response.new c).body.attempts = 0 ∧
    (Response.new c).body.flushAttempts = 0 :=
  ⟨rfl, rfl, rfl, rfl, rfl, rfl, rfl⟩

/-- Claim C8: on success `start` returns a `Streaming` writer whose
version, status, headers (with any synthesized `Date`) and sink are
exactly those of the consumed writer at the end of serialization; the
sink behaviour and flush state are carried over, not replaced. -/
theorem c8_start_frame (r : Response Fresh) (now : UtcTime)
    (t : Response Streaming) (h : r.start now = Except.ok t) :
    t.version = r.version ∧ t.status = r.status ∧
    t.headers = ensureDate r.headers now ∧
    t.body = (r.startAux now).1 ∧
    t.body.results = r.body.results ∧
    t.body.flushResults = r.body.flushResults ∧
    t.body.flushAttempts = r.body.flushAttempts := by
  obtain ⟨h1, h2, h3, h4, -, h5, h6, h7⟩ := start_ok_spec r now t h
  exact ⟨h1, h2, h3, h4, h5, h6, h7⟩

/-- Claim C8, witness. -/
theorem c8_start_frame_witness :
    tEmpty.version = rEmpty.version ∧ tEmpty.status = rEmpty.status ∧
    tEmpty.headers = ensureDate rEmpty.headers ⟨0⟩ ∧
    tEmpty.body = (rEmpty.startAux ⟨0⟩).1 ∧
    tEmpty.body.results = rEmpty.body.results ∧
    tEmpty.body.flushResults = rEmpty.body.flushResults ∧
    tEmpty.body.flushAttempts = rEmpty.body.flushAttempts :=
  c8_start_frame rEmpty ⟨0⟩ tEmpty (by rfl)

/-- Claim C9: `write` on a `Streaming` writer forwards the bytes to the
buffered sink unmodified — on sink success the trace is extended by
exactly the given bytes — and mirrors the sink's write result; `flush`
mirrors the sink's flush result. -/
theorem c9_write_forwards (t : Response Streaming) (msg : String) :
    (t.write msg).2 = (t.body.write msg).2 ∧
    (t.write msg).1.body = (t.body.write msg).1 ∧
    ((t.body.write msg).2 = none →
      (t.write msg).1.body.written = t.body.written ++ msg) ∧
    t.flush.2 = t.body.flush.2 ∧
    t.flush.1.body = t.body.flush.1 := by
  refine ⟨rfl, rfl, ?_, rfl, rfl⟩
  intro hok
  cases hr : t.body.results.getD t.body.attempts none with
  | none => simp only [Response.write, BufWriter.write, hr]
  | some e =>
    rw [BufWriter.write, hr] at hok
    simp at hok

/-- Claim C9, witness: a successful concrete write. -/
theorem c9_write_forwards_witness :
    (tEmpty.write "hi").2 = (tEmpty.body.write "hi").2 ∧
    (tEmpty.write "hi").1.body = (tEmpty.body.write "hi").1 ∧
    ((tEmpty.body.write "hi").2 = none →
      (tEmpty.write "hi").1.body.written = tEmpty.body.written ++ "hi") ∧
    tEmpty.flush.2 = tEmpty.body.flush.2 ∧
    tEmpty.flush.1.body = tEmpty.body.flush.1 :=
  c9_write_forwards tEmpty "hi"

/-- Claim C10: `construct` and `deconstruct` are mutually inverse on
`Fresh` writers: deconstructing a constructed writer returns exactly the
parts, constructing from the parts of a deconstructed writer restores it,
and neither touches the sink. -/
theorem c10_construct_deconstruct (v : HttpVersion) (b : BufWriter)
    (s : StatusCode) (hd : Headers) (r : Response Fresh) :
    Response.deconstruct (Response.construct v b s hd) = (v, b, s, hd) ∧
    Response.construct r.deconstruct.1 r.deconstruct.2.1 r.deconstruct.2.2.1
      r.deconstruct.2.2.2 = r ∧
    (Response.construct v b s hd).body.written = b.written ∧
    (Response.construct v b s hd).body.attempts = b.attempts :=
  ⟨rfl, rfl, rfl, rfl⟩

end ServerResponse
